import Mathlib

/-!
Shallow embedding of the Aegis (URL-Guardian) URL Risk Assessment Engine.

Sources embedded:
- `src/background.js`: CONFIG (TLD categories, suspicious patterns, cache TTL),
  `URLCache`, `analyzeUrlStructure`, `analyzeUrl`, the `chrome.runtime.onMessage`
  dispatcher, `handleUrlAnalysis`, `handleUserOverride`, `handleUserBlock`,
  `handleSettingsUpdate`.
- the user-learning module (`UserLearningSystem` in `src/unnamed/part_003`):
  `recordInteraction`, `updateDomainTrust`, `updateCategoryPreference`,
  `updateTimePattern`, `calculateTrustScore`, `calculateOverrideScore`,
  `interpretTrustScore`, `calculateConfidence`, `getRecommendations`.

Modelling conventions:
- JS `Map`s become association lists with `List.lookup`; `Map.set` replaces the
  first binding in place (JS maps keep insertion order), `Map.delete` removes it.
- Millisecond clock values (`Date.now()`) are `Nat`; JS float arithmetic on
  scores is idealised as exact real arithmetic (`Math.exp` is `Real.exp`,
  `Math.log10` is `Real.logb 10`), which is the reading the spec uses.
- `new URL(...)` is modelled by `parseHttpUrl` / `parseUrl` for the common
  `http(s)://host[:port]/...` shapes the analyzer handles; the WHATWG parser
  lower-cases the hostname, and so does the model.  Inputs outside this shape
  (userinfo, IPv6 brackets, non-http schemes) parse to `none`, which models the
  constructor throwing.
- Async functions run to completion atomically; `await`ed persistence
  (`chrome.storage`) is kept in the in-memory state and its failure paths are
  not modelled.  A thrown JS exception is an `Option.none` result.
-/

namespace Aegis

/-- ASCII lower-casing of one character: the WHATWG URL parser lower-cases
hostnames, and `String.prototype.toLowerCase` acts this way on ASCII. -/
def lowerChar (c : Char) : Char :=
  if 'A' ≤ c ∧ c ≤ 'Z' then Char.ofNat (c.toNat + 32) else c

def lowerList (cs : List Char) : List Char := cs.map lowerChar

def lowerStr (s : String) : String := ⟨lowerList s.data⟩

/-- JS `str.split(sep)` for a one-character separator, over character lists.
`split` of the empty string is `[""]`, and separators at the ends produce
empty fields, exactly as in JS. -/
def splitOnChar (sep : Char) : List Char → List (List Char)
  | [] => [[]]
  | c :: rest =>
    if c = sep then [] :: splitOnChar sep rest
    else
      match splitOnChar sep rest with
      | [] => [[c]]
      | g :: gs => (c :: g) :: gs

/-- CONFIG.TLD_CATEGORIES.HIGH_RISK from src/background.js. -/
def HIGH_RISK_TLDS : List String :=
  ["tk", "ml", "ga", "gq", "cf",
   "xyz", "top", "club", "work", "date", "racing", "win", "bid",
   "stream", "download", "review", "country", "science", "party",
   "crypto", "nft", "coin", "token", "wallet",
   "online", "site", "website", "tech", "space"]

/-- CONFIG.TLD_CATEGORIES.MEDIUM_RISK from src/background.js. -/
def MEDIUM_RISK_TLDS : List String :=
  ["biz", "info", "pro", "name", "mobi",
   "cc", "ws", "me", "tv",
   "app", "dev", "cloud", "digital", "network",
   "shop", "store", "market", "link", "click"]

/-- CONFIG.TLD_CATEGORIES.LOW_RISK from src/background.js. -/
def LOW_RISK_TLDS : List String :=
  ["com", "org", "net", "edu", "gov", "mil",
   "uk", "us", "ca", "au", "eu", "de", "fr", "jp", "kr", "nz",
   "io", "co", "ai", "dev"]

/-- The slice of a parsed `URL` object that `analyzeUrlStructure` reads:
`urlObj.hostname` (lower-cased by the parser) and `urlObj.port`. -/
structure UrlObj where
  scheme : String
  hostname : String
  port : Option String
deriving DecidableEq, Repr

/-- Authority part of `new URL(...)`: host and optional port.  Userinfo and
IPv6 literals are outside the modelled shape (`none` = constructor throws). -/
def parseAuthority (cs : List Char) : Option (String × Option String) :=
  let auth := cs.takeWhile fun c => !(c == '/' || c == '?' || c == '#')
  if auth.contains '@' || auth.contains '[' || auth.contains ']' then none
  else
    match splitOnChar ':' auth with
    | [h] => if h.isEmpty then none else some (⟨lowerList h⟩, none)
    | [h, p] =>
      if h.isEmpty || !p.all Char.isDigit then none
      else some (⟨lowerList h⟩, if p.isEmpty then none else some ⟨p⟩)
    | _ => none

/-- Model of `new URL(s)` for `http://` and `https://` inputs. -/
def parseHttpUrl (s : String) : Option UrlObj :=
  if s.data.take 8 = "https://".data then
    (parseAuthority (s.data.drop 8)).map fun hp => ⟨"https", hp.1, hp.2⟩
  else if s.data.take 7 = "http://".data then
    (parseAuthority (s.data.drop 7)).map fun hp => ⟨"http", hp.1, hp.2⟩
  else none

/-- The analyzer's parse step:
`new URL(urlString.startsWith('http') ? urlString : 'http://' + urlString)`. -/
def parseUrl (s : String) : Option UrlObj :=
  parseHttpUrl (if s.data.take 4 = "http".data then s else ⟨"http://".data ++ s.data⟩)

/-- Case-insensitive `^https?:\/\/` prefix strip (the `/i` patterns). -/
def httpPrefixCI (s : String) : Option (List Char) :=
  let t := lowerList s.data
  if t.take 8 = "https://".data then some (t.drop 8)
  else if t.take 7 = "http://".data then some (t.drop 7)
  else none

/-- Case-sensitive `^https?:\/\/` prefix strip (the IPv4 pattern has no `/i`). -/
def httpPrefixCS (s : String) : Option (List Char) :=
  if s.data.take 8 = "https://".data then some (s.data.drop 8)
  else if s.data.take 7 = "http://".data then some (s.data.drop 7)
  else none

/-- `SUSPICIOUS_PATTERNS[0]`: `/^(?!https?:\/\/).*$/i` — the string does not
start (case-insensitively) with an http(s) scheme. -/
def pattern1 (s : String) : Bool := (httpPrefixCI s).isNone

/-- `SUSPICIOUS_PATTERNS[1]`: `/^https?:\/\/[^\/]+\.(?:php|asp|jsp|html)$/i`. -/
def pattern2 (s : String) : Bool :=
  match httpPrefixCI s with
  | none => false
  | some rest =>
    !rest.contains '/' &&
    ([".php", ".asp", ".jsp", ".html"].any fun e =>
      e.data.isSuffixOf rest && rest.length ≥ e.data.length + 1)

/-- `SUSPICIOUS_PATTERNS[2]`: `/^https?:\/\/[^\/]+\.(?:tk|ml|ga|gq|cf)$/i`. -/
def pattern3 (s : String) : Bool :=
  match httpPrefixCI s with
  | none => false
  | some rest =>
    !rest.contains '/' &&
    ([".tk", ".ml", ".ga", ".gq", ".cf"].any fun e =>
      e.data.isSuffixOf rest && rest.length ≥ e.data.length + 1)

def suspiciousPatternTest (s : String) : Bool :=
  pattern1 s || pattern2 s || pattern3 s

/-- The escapes excluded by the lookahead in
`/%(?!20|2D|2E|5F|2F|3F|3D|26|25)[0-9A-Fa-f]{2}/` (case-sensitive). -/
def ALLOWED_ESCAPES : List (Char × Char) :=
  [('2', '0'), ('2', 'D'), ('2', 'E'), ('5', 'F'), ('2', 'F'),
   ('3', 'F'), ('3', 'D'), ('2', '6'), ('2', '5')]

def isHexDigit (c : Char) : Bool :=
  c.isDigit || ('A' ≤ c && c ≤ 'F') || ('a' ≤ c && c ≤ 'f')

/-- Scan for a suspicious percent escape anywhere in the string. -/
def encodingScan : List Char → Bool
  | '%' :: a :: b :: rest =>
    (isHexDigit a && isHexDigit b && !ALLOWED_ESCAPES.contains (a, b))
      || encodingScan (a :: b :: rest)
  | _ :: rest => encodingScan rest
  | [] => false

def suspiciousEncodingTest (s : String) : Bool := encodingScan s.data

/-- One `(\d{1,3}\.)` group of the IPv4 pattern: a run of 1–3 digits followed
by a literal dot.  Because a digit cannot match `\.`, the regex decomposition
is forced, so this direct scan is exact. -/
def ipGroup (cs : List Char) : Option (List Char) :=
  let n := (cs.takeWhile Char.isDigit).length
  if 1 ≤ n && n ≤ 3 then
    match cs.drop n with
    | '.' :: rest => some rest
    | _ => none
  else none

/-- `/^https?:\/\/(\d{1,3}\.){3}\d{1,3}/` tested on the raw url string. -/
def ipv4PatternTest (s : String) : Bool :=
  match httpPrefixCS s with
  | none => false
  | some rest =>
    match ipGroup rest with
    | none => false
    | some r1 =>
      match ipGroup r1 with
      | none => false
      | some r2 =>
        match ipGroup r2 with
        | none => false
        | some r3 => !(r3.takeWhile Char.isDigit).isEmpty

def startsWithChars (cs : List Char) (p : String) : Bool := p.data.isPrefixOf cs

/-- `/^172\.(1[6-9]|2[0-9]|3[0-1])\./` on the hostname. -/
def private172 (cs : List Char) : Bool :=
  startsWithChars cs "172." &&
  (match cs.drop 4 with
   | c1 :: c2 :: c3 :: _ =>
     c3 == '.' &&
       ((c1 == '1' && '6' ≤ c2 && c2 ≤ '9')
         || (c1 == '2' && c2.isDigit)
         || (c1 == '3' && (c2 == '0' || c2 == '1')))
   | _ => false)

/-- `privateIpRanges.some(range => range.test(ip))` from src/background.js. -/
def privateIpTest (host : String) : Bool :=
  startsWithChars host.data "192.168." || startsWithChars host.data "10."
    || private172 host.data || startsWithChars host.data "127."

/-- The findings `analyzeUrlStructure` can push.  Each constructor stands for
one exact issue string of the source; the severity classifiers below mirror
the source's `issue.includes(...)` tests, which match exactly one string each
(hostnames are lower-cased, so no payload can fake the capitalised needles):
- `excessiveSubdomains n` — `Excessive subdomains (n)`
- `highRiskTld t` — `High-risk top-level domain (.t)`
- `potentiallyRisky t` — `Potentially risky domain (.t with complex structure)`
- `uncommonTld t` — `Uncommon top-level domain (.t)`
- `suspiciousPattern` — `Suspicious URL pattern detected`
- `suspiciousEncoding` — `Suspicious URL encoding detected`
- `publicIp` — `Public IP address used instead of domain name`
- `unusualPort p` — `Unusual port number (p)`
- `longHostname` — `Excessively long hostname`
- `mixedCase` — `Suspicious mixed-case domain name`
- `invalidUrl` — `Invalid URL format`
- `safeBrowsing t` — `Google Safe Browsing: t detected` (merged in `analyzeUrl`)
-/
inductive Issue where
  | excessiveSubdomains (n : Int)
  | highRiskTld (t : String)
  | potentiallyRisky (t : String)
  | uncommonTld (t : String)
  | suspiciousPattern
  | suspiciousEncoding
  | publicIp
  | unusualPort (p : String)
  | longHostname
  | mixedCase
  | invalidUrl
  | safeBrowsing (threat : String)
deriving DecidableEq, Repr

/-- `issue.includes('High-risk') || issue.includes('Suspicious URL encoding')
|| issue.includes('Public IP address')` — the hard set. -/
def Issue.isHard : Issue → Bool
  | .highRiskTld _ => true
  | .suspiciousEncoding => true
  | .publicIp => true
  | _ => false

/-- `issue.includes('Potentially risky') || issue.includes('Uncommon top-level
domain')` — the soft-risk set. -/
def Issue.isSoft : Issue → Bool
  | .potentiallyRisky _ => true
  | .uncommonTld _ => true
  | _ => false

inductive Severity where
  | low
  | medium
  | high
deriving DecidableEq, Repr

def MAX_SUBDOMAINS : Int := 3

def commonPorts : List String := ["80", "443", "8080", "8443"]

def hasUpperAZ (cs : List Char) : Bool := cs.any fun c => 'A' ≤ c && c ≤ 'Z'

/-- `urlObj.hostname.split('.').pop().toLowerCase()`. -/
def tldOf (host : String) : String :=
  lowerStr ⟨(splitOnChar '.' host.data).getLastD []⟩

/-- `urlObj.hostname.split('.').length - 2`. -/
def subdomainCountOf (host : String) : Int :=
  ((splitOnChar '.' host.data).length : Int) - 2

/-- The issue list `analyzeUrlStructure` accumulates for a parsed URL, in
source order. -/
def computeIssues (s : String) (u : UrlObj) : List Issue :=
  let subCnt := subdomainCountOf u.hostname
  let tld := tldOf u.hostname
  (if subCnt > MAX_SUBDOMAINS then [Issue.excessiveSubdomains subCnt] else [])
    ++ (if HIGH_RISK_TLDS.contains tld then [Issue.highRiskTld tld]
        else if MEDIUM_RISK_TLDS.contains tld then
          (if subCnt > 0 ∨ u.hostname.length > 30 then [Issue.potentiallyRisky tld] else [])
        else if !LOW_RISK_TLDS.contains tld then [Issue.uncommonTld tld]
        else [])
    ++ (if suspiciousPatternTest s then [Issue.suspiciousPattern] else [])
    ++ (if suspiciousEncodingTest s then [Issue.suspiciousEncoding] else [])
    ++ (if ipv4PatternTest s && !privateIpTest u.hostname then [Issue.publicIp] else [])
    ++ (match u.port with
        | some p => if !commonPorts.contains p then [Issue.unusualPort p] else []
        | none => [])
    ++ (if u.hostname.length > 50 then [Issue.longHostname] else [])
    ++ (if hasUpperAZ u.hostname.data then [Issue.mixedCase] else [])

/-- The enhanced severity calculation at the end of `analyzeUrlStructure`. -/
def computeSeverity (issues : List Issue) : Severity :=
  if issues.length > 0 then
    if issues.length > 2 || issues.any Issue.isHard then Severity.high
    else if issues.any Issue.isSoft then Severity.medium
    else Severity.low
  else Severity.low

/-- `analyzeUrlStructure(urlString)` from src/background.js; the `catch`
branch is the `parseUrl s = none` case. -/
def analyzeUrlStructure (s : String) : List Issue × Severity :=
  match parseUrl s with
  | none => ([Issue.invalidUrl], Severity.high)
  | some u =>
    let issues := computeIssues s u
    (issues, computeSeverity issues)

structure AnalysisResult where
  url : String
  timestamp : Nat
  issues : List Issue
  severity : Severity
  safe : Bool
  adjustedBySafety : Bool := false
  category : Option String := none
deriving DecidableEq, Repr

/-- What `checkSafeBrowsing` resolves to.  With no API key, on any network
error, and on a clean verdict alike it is safe with an empty threat list. -/
structure SBResult where
  isSafe : Bool
  threats : List String
deriving DecidableEq, Repr

def noThreats : SBResult := ⟨true, []⟩

/-- `analyzeUrl(url)` from src/background.js: merge of the structural analysis
with the Safe Browsing result (the `totalBlocked` increment it performs is
applied by the engine wrapper `analyzeUrlStep`). -/
def analyzeUrl (s : String) (sb : SBResult) (now : Nat) : AnalysisResult :=
  let structData := analyzeUrlStructure s
  let issues := structData.1 ++ sb.threats.map Issue.safeBrowsing
  let severity :=
    if sb.threats.length > 0 then Severity.high
    else if structData.2 = Severity.high then Severity.high
    else if structData.2 = Severity.medium then Severity.medium
    else Severity.low
  { url := s, timestamp := now, issues := issues, severity := severity,
    safe := severity = Severity.low }

/-! ## Adaptive Trust Learner (`UserLearningSystem`) -/

/-- The two user decisions the system records (`'proceed'` / `'block'`). -/
inductive UserAction where
  | proceed
  | block
deriving DecidableEq, Repr

/-- Per-domain counters; the source field `unsafe` is named `unsafeCount`. -/
structure DomainTrust where
  safe : Nat
  unsafeCount : Nat
  total : Nat
deriving DecidableEq, Repr

structure CategoryPref where
  trusted : Nat
  blocked : Nat
deriving DecidableEq, Repr

/-- Per-hour counters; the source field `unsafe` is named `unsafeCount`. -/
structure TimeActivity where
  safe : Nat
  unsafeCount : Nat
deriving DecidableEq, Repr

/-- An entry of the `safeOverrides` map (`{frequency, lastOverride}`). -/
structure OverrideRecord where
  frequency : ℝ
  lastOverride : ℝ

/-- An element of `sessionData.interactions`. -/
structure Interaction where
  url : String
  domain : String
  action : UserAction
  timestamp : Nat
  hour : Nat
  analysis : AnalysisResult

/-- The `userPatterns` maps of `UserLearningSystem` (JS `Map`s as
association lists; `sessionData.startTime` is not read anywhere). -/
structure Learner where
  safeOverrides : List (String × OverrideRecord)
  categoryPreferences : List (String × CategoryPref)
  timeBasedActivity : List (Nat × TimeActivity)
  domainTrust : List (String × DomainTrust)
  interactions : List Interaction

def emptyLearner : Learner := ⟨[], [], [], [], []⟩

/-- JS `Map.set`: replace the first binding of the key in place, else append. -/
def alSet {α β : Type} [BEq α] : List (α × β) → α → β → List (α × β)
  | [], k, v => [(k, v)]
  | (k', v') :: rest, k, v =>
    if k' == k then (k', v) :: rest else (k', v') :: alSet rest k v

/-- JS `Map.delete`: remove the binding of the key (a no-op when absent). -/
def alErase {α β : Type} [BEq α] : List (α × β) → α → List (α × β)
  | [], _ => []
  | (k', v') :: rest, k => if k' == k then rest else (k', v') :: alErase rest k

/-- Inputs the engine reads from its surroundings during one request:
`Date.now()`, `new Date().getHours()` and the Safe Browsing response. -/
structure Env where
  now : Nat
  hour : Nat
  sb : SBResult

/-- `new URL(url).hostname` exactly as the learner computes it (no
`http://` fixup); `none` models the constructor throwing. -/
def jsUrlHostname (s : String) : Option String := (parseHttpUrl s).map UrlObj.hostname

/-- `updateDomainTrust(domain, action)`. -/
def updateDomainTrust (m : List (String × DomainTrust)) (domain : String)
    (action : UserAction) : List (String × DomainTrust) :=
  let currentTrust := (List.lookup domain m).getD ⟨0, 0, 0⟩
  let afterAction :=
    match action with
    | .proceed => { currentTrust with safe := currentTrust.safe + 1 }
    | .block => { currentTrust with unsafeCount := currentTrust.unsafeCount + 1 }
  alSet m domain { afterAction with total := afterAction.total + 1 }

/-- `updateCategoryPreference(category, action)`. -/
def updateCategoryPreference (m : List (String × CategoryPref)) (category : String)
    (action : UserAction) : List (String × CategoryPref) :=
  let current := (List.lookup category m).getD ⟨0, 0⟩
  let current' :=
    match action with
    | .proceed => { current with trusted := current.trusted + 1 }
    | .block => { current with blocked := current.blocked + 1 }
  alSet m category current'

/-- `updateTimePattern(hour, action)`. -/
def updateTimePattern (m : List (Nat × TimeActivity)) (hour : Nat)
    (action : UserAction) : List (Nat × TimeActivity) :=
  let current := (List.lookup hour m).getD ⟨0, 0⟩
  let current' :=
    match action with
    | .proceed => { current with safe := current.safe + 1 }
    | .block => { current with unsafeCount := current.unsafeCount + 1 }
  alSet m hour current'

/-- `recordInteraction(url, action, analysis)`: note that it never touches
`safeOverrides`.  `none` models the `new URL(url)` throw. -/
def recordInteraction (env : Env) (L : Learner) (url : String) (action : UserAction)
    (analysis : AnalysisResult) : Option Learner :=
  (jsUrlHostname url).map fun domain =>
    { safeOverrides := L.safeOverrides
      categoryPreferences :=
        match analysis.category with
        | some c => updateCategoryPreference L.categoryPreferences c action
        | none => L.categoryPreferences
      timeBasedActivity := updateTimePattern L.timeBasedActivity env.hour action
      domainTrust := updateDomainTrust L.domainTrust domain action
      interactions := L.interactions ++
        [{ url := url, domain := domain, action := action,
           timestamp := env.now, hour := env.hour, analysis := analysis }] }

/-- `this.weights` of the learner. -/
noncomputable def weightOverrideFrequency : ℝ := 0.3

noncomputable def weightCategoryTrust : ℝ := 0.25

noncomputable def weightDomainHistory : ℝ := 0.25

noncomputable def weightTimePattern : ℝ := 0.2

/-- `calculateOverrideScore(domain)`: `min(frequency * exp(-recency/30), 1)`
with `recency` in days since the last override. -/
noncomputable def calculateOverrideScore (env : Env) (L : Learner) (domain : String) : ℝ :=
  match List.lookup domain L.safeOverrides with
  | none => 0
  | some o =>
    let recency : ℝ := ((env.now : ℝ) - o.lastOverride) / (24 * 60 * 60 * 1000)
    min (o.frequency * Real.exp (-recency / 30)) 1

inductive RecLevel where
  | TRUST
  | PROBABLY_SAFE
  | NEUTRAL
  | PROBABLY_UNSAFE
  | UNSAFE
deriving DecidableEq, Repr

/-- `interpretTrustScore(score)`. -/
noncomputable def interpretTrustScore (score : ℝ) : RecLevel :=
  if score ≥ 0.8 then RecLevel.TRUST
  else if score ≥ 0.6 then RecLevel.PROBABLY_SAFE
  else if score ≥ 0.4 then RecLevel.NEUTRAL
  else if score ≥ 0.2 then RecLevel.PROBABLY_UNSAFE
  else RecLevel.UNSAFE

/-- Domain-history component of `calculateTrustScore`. -/
noncomputable def domainHistoryScore (L : Learner) (domain : String) : ℝ :=
  match List.lookup domain L.domainTrust with
  | some dt => ((dt.safe : ℝ) / (dt.total : ℝ)) * weightDomainHistory
  | none => 0

/-- Category-preference component of `calculateTrustScore`. -/
noncomputable def categoryScore (L : Learner) (analysis : AnalysisResult) : ℝ :=
  match analysis.category with
  | some c =>
    match List.lookup c L.categoryPreferences with
    | some cp => ((cp.trusted : ℝ) / ((cp.trusted : ℝ) + (cp.blocked : ℝ))) * weightCategoryTrust
    | none => 0
  | none => 0

/-- Time-pattern component of `calculateTrustScore`. -/
noncomputable def timePatternScore (L : Learner) (hour : Nat) : ℝ :=
  match List.lookup hour L.timeBasedActivity with
  | some tp => ((tp.safe : ℝ) / ((tp.safe : ℝ) + (tp.unsafeCount : ℝ))) * weightTimePattern
  | none => 0

/-- `calculateTrustScore(url, analysis)` once the domain is extracted. -/
noncomputable def calculateTrustScoreD (env : Env) (L : Learner) (domain : String)
    (analysis : AnalysisResult) : ℝ :=
  domainHistoryScore L domain + categoryScore L analysis + timePatternScore L env.hour
    + calculateOverrideScore env L domain * weightOverrideFrequency

/-- `calculateTrustScore(url, analysis)`; `none` models the `new URL` throw. -/
noncomputable def calculateTrustScore (env : Env) (L : Learner) (url : String)
    (analysis : AnalysisResult) : Option ℝ :=
  (jsUrlHostname url).map fun domain => calculateTrustScoreD env L domain analysis

/-- `calculateConfidence(domain)`: `min(log10(total + 1) / 2, 1)`. -/
noncomputable def calculateConfidence (L : Learner) (domain : String) : ℝ :=
  match List.lookup domain L.domainTrust with
  | none => 0
  | some dt => min (Real.logb 10 ((dt.total : ℝ) + 1) / 2) 1

structure Recommendation where
  trustScore : ℝ
  recommendation : RecLevel
  domainStats : DomainTrust
  learningConfidence : ℝ

/-- `getRecommendations(url, analysis)`; `none` models the `new URL` throw. -/
noncomputable def getRecommendations (env : Env) (L : Learner) (url : String)
    (analysis : AnalysisResult) : Option Recommendation :=
  match jsUrlHostname url with
  | none => none
  | some domain =>
    let ts := calculateTrustScoreD env L domain analysis
    some { trustScore := ts
           recommendation := interpretTrustScore ts
           domainStats := (List.lookup domain L.domainTrust).getD ⟨0, 0, 0⟩
           learningConfidence := calculateConfidence L domain }

/-! ## Result Cache (`URLCache`) -/

structure CacheEntry where
  timestamp : Nat
  result : AnalysisResult
deriving DecidableEq, Repr

def CACHE_DURATION : Nat := 24 * 60 * 60 * 1000

/-- `URLCache.set(url, result)`. -/
def cacheSet (c : List (String × CacheEntry)) (url : String) (now : Nat)
    (r : AnalysisResult) : List (String × CacheEntry) :=
  alSet c url ⟨now, r⟩

/-- `URLCache.get(url)`: returns the value only while fresh, otherwise deletes
the entry (also the no-op delete on a plain miss) and reports `null`. -/
def cacheGet (c : List (String × CacheEntry)) (url : String) (now : Nat) :
    Option AnalysisResult × List (String × CacheEntry) :=
  match List.lookup url c with
  | some e =>
    if now - e.timestamp < CACHE_DURATION then (some e.result, c)
    else (none, alErase c url)
  | none => (none, alErase c url)

/-! ## Decision Engine (`state`, message dispatcher, handlers) -/

structure Settings where
  enableProtection : Bool
  showWarnings : Bool
  blockHighRisk : Bool
  enableSafeBrowsing : Bool
  keepHistory : Bool
deriving DecidableEq, Repr

def defaultSettings : Settings := ⟨true, true, true, true, true⟩

structure Stats where
  totalAnalyzed : Nat
  totalBlocked : Nat
  totalWarnings : Nat
  sessionOverrides : Nat
deriving DecidableEq, Repr

structure HistoryEntry where
  url : String
  timestamp : Nat
  analysis : AnalysisResult
  overridden : Bool
deriving DecidableEq, Repr

/-- The background script's `state` object (the API key is folded into
`Env.sb`, which already is `checkSafeBrowsing`'s resolved value). -/
structure EngineState where
  settings : Settings
  urlCache : List (String × CacheEntry)
  analyzingUrls : List String
  sessionOverrides : List String
  stats : Stats
  urlHistory : List HistoryEntry
  learner : Learner

/-- JS `Set.add` on the session-override set. -/
def setAdd (l : List String) (x : String) : List String :=
  if l.contains x then l else x :: l

/-- What `handleUrlAnalysis` sends back; absent JS fields are the defaults
(`undefined` is falsy).  The `{error, safe:true}` reply the message listener
sends when the handler throws is `errorFlag := true`. -/
structure AnalyzeResponse where
  safe : Bool
  overridden : Bool := false
  cached : Bool := false
  errorFlag : Bool := false
  result : Option AnalysisResult := none
  learningRecommendation : Option Recommendation := none

/-- Result of one `ANALYZE_URL` request: the reply, the state after the
request, and how many outbound reputation lookups (`analyzeUrl` runs, each
performing one `checkSafeBrowsing` call) it made. -/
structure AnalyzeOutcome where
  response : AnalyzeResponse
  state : EngineState
  lookups : Nat

/-- `analyzeUrl` together with the `totalBlocked` increment it performs. -/
def analyzeUrlStep (s : String) (sb : SBResult) (now : Nat) (stats : Stats) :
    AnalysisResult × Stats :=
  let r := analyzeUrl s sb now
  (r, if r.safe then stats else { stats with totalBlocked := stats.totalBlocked + 1 })

/-- History update of the fresh path: unshift a new entry, cap at 100. -/
def pushHistory (h : List HistoryEntry) (e : HistoryEntry) : List HistoryEntry :=
  let h' := e :: h
  if h'.length > 100 then h'.dropLast else h'

/-- `urlHistory.find(entry => entry.url === url)` then set `overridden`. -/
def markOverridden : List HistoryEntry → String → List HistoryEntry
  | [], _ => []
  | e :: rest, url =>
    if e.url == url then { e with overridden := true } :: rest
    else e :: markOverridden rest url

/-- `handleUrlAnalysis(url)` from src/background.js, run to completion. -/
noncomputable def handleUrlAnalysis (env : Env) (st : EngineState) (url : String) :
    AnalyzeOutcome :=
  if st.settings.enableProtection = false then
    ⟨{ safe := true }, st, 0⟩
  else if st.sessionOverrides.contains url then
    let g := cacheGet st.urlCache url env.now
    ⟨{ safe := true, overridden := true, result := g.1 }, { st with urlCache := g.2 }, 0⟩
  else
    let g := cacheGet st.urlCache url env.now
    let st1 := { st with urlCache := g.2 }
    match g.1 with
    | some cachedResult =>
      match getRecommendations env st1.learner url cachedResult with
      | none => ⟨{ safe := true, errorFlag := true }, st1, 0⟩
      | some rcm =>
        if rcm.recommendation = RecLevel.TRUST ∧ rcm.learningConfidence > 0.7 then
          ⟨{ safe := cachedResult.safe, result := some cachedResult,
             learningRecommendation := some rcm }, st1, 0⟩
        else if cachedResult.safe = false ∧ rcm.recommendation ≠ RecLevel.TRUST then
          let fr := analyzeUrlStep url env.sb env.now st1.stats
          ⟨{ safe := fr.1.safe, result := some fr.1, learningRecommendation := some rcm },
           { st1 with stats := fr.2, urlCache := cacheSet st1.urlCache url env.now fr.1 }, 1⟩
        else
          ⟨{ safe := cachedResult.safe, result := some cachedResult,
             learningRecommendation := some rcm }, st1, 0⟩
    | none =>
      if st1.analyzingUrls.contains url then
        ⟨{ safe := true, cached := true }, st1, 0⟩
      else
        let stA := { st1 with analyzingUrls := url :: st1.analyzingUrls }
        let fr := analyzeUrlStep url env.sb env.now stA.stats
        match getRecommendations env stA.learner url fr.1 with
        | none =>
          ⟨{ safe := true, errorFlag := true },
           { stA with stats := fr.2, analyzingUrls := stA.analyzingUrls.erase url }, 1⟩
        | some rcm =>
          let analysis1 :=
            if rcm.recommendation = RecLevel.TRUST ∧ rcm.learningConfidence > 0.8 then
              { fr.1 with safe := true, adjustedBySafety := true }
            else if rcm.recommendation = RecLevel.UNSAFE ∧ rcm.learningConfidence > 0.8 then
              { fr.1 with safe := false, adjustedBySafety := true }
            else fr.1
          let stats2 := { fr.2 with totalAnalyzed := fr.2.totalAnalyzed + 1 }
          let stats3 :=
            if analysis1.safe = false then
              { stats2 with totalWarnings := stats2.totalWarnings + 1 }
            else stats2
          let hist :=
            if stA.settings.keepHistory then
              pushHistory stA.urlHistory
                { url := url, timestamp := env.now, analysis := analysis1, overridden := false }
            else stA.urlHistory
          ⟨{ safe := analysis1.safe, result := some analysis1, learningRecommendation := some rcm },
           { stA with
             stats := stats3
             urlHistory := hist
             urlCache := cacheSet stA.urlCache url env.now analysis1
             analyzingUrls := stA.analyzingUrls.erase url }, 1⟩

/-- `handleUserOverride(url)` from src/background.js.  The override is only
recorded when the URL still has a fresh cache entry; a throw inside
`recordInteraction` aborts before the session-override insertion. -/
def handleUserOverride (env : Env) (st : EngineState) (url : String) : EngineState :=
  let g := cacheGet st.urlCache url env.now
  let st1 := { st with urlCache := g.2 }
  match g.1 with
  | none => st1
  | some analysis =>
    match recordInteraction env st1.learner url UserAction.proceed analysis with
    | none => st1
    | some L' =>
      let st2 :=
        { st1 with
          learner := L'
          sessionOverrides := setAdd st1.sessionOverrides url
          stats := { st1.stats with sessionOverrides := st1.stats.sessionOverrides + 1 } }
      if st2.settings.keepHistory then
        { st2 with urlHistory := markOverridden st2.urlHistory url }
      else st2

/-- `handleUserBlock(url)` from src/background.js (defined there but never
invoked by the message dispatcher). -/
def handleUserBlock (env : Env) (st : EngineState) (url : String) : EngineState :=
  let g := cacheGet st.urlCache url env.now
  let st1 := { st with urlCache := g.2 }
  match g.1 with
  | none => st1
  | some analysis =>
    match recordInteraction env st1.learner url UserAction.block analysis with
    | none => st1
    | some L' => { st1 with learner := L' }

/-- `handleSettingsUpdate(newSettings)` (modelled with a full settings
object; the source merges a partial one). -/
def handleSettingsUpdate (st : EngineState) (s : Settings) : EngineState :=
  { st with settings := s }

/-- The message types the UI and content scripts send (content.js sends
`USER_BLOCK` from the warning dialog's block button). -/
inductive MessageType where
  | ANALYZE_URL
  | USER_OVERRIDE
  | SETTINGS_UPDATED
  | GET_STATS
  | GET_HISTORY
  | USER_BLOCK
deriving DecidableEq, Repr

/-- The handlers the `chrome.runtime.onMessage` listener can route to. -/
inductive Handler where
  | analyzeHandler
  | overrideHandler
  | settingsHandler
  | statsHandler
  | historyHandler
deriving DecidableEq, Repr

/-- Which handler the `chrome.runtime.onMessage` listener invokes for each
message type.  The listener's if/else chain tests exactly the five types
below; every other message (USER_BLOCK included) falls through to the final
`return false` with no handler call. -/
def dispatchedHandler : MessageType → Option Handler
  | MessageType.ANALYZE_URL => some Handler.analyzeHandler
  | MessageType.USER_OVERRIDE => some Handler.overrideHandler
  | MessageType.SETTINGS_UPDATED => some Handler.settingsHandler
  | MessageType.GET_STATS => some Handler.statsHandler
  | MessageType.GET_HISTORY => some Handler.historyHandler
  | MessageType.USER_BLOCK => none

/-- State transition of one inbound message through the listener.
`GET_STATS`/`GET_HISTORY` are read-only; an unrouted message leaves the
state untouched. -/
noncomputable def processMessage (env : Env) (st : EngineState) (msg : MessageType)
    (url : String) (newSettings : Settings) : EngineState :=
  match msg with
  | MessageType.ANALYZE_URL => (handleUrlAnalysis env st url).state
  | MessageType.USER_OVERRIDE => handleUserOverride env st url
  | MessageType.SETTINGS_UPDATED => handleSettingsUpdate st newSettings
  | MessageType.GET_STATS => st
  | MessageType.GET_HISTORY => st
  | MessageType.USER_BLOCK => st

/-! ## Auxiliary definitions for the verification -/

/-- The hard set of the severity policy, constructor-level. -/
def HardIssue (i : Issue) : Prop :=
  (∃ t, i = Issue.highRiskTld t) ∨ i = Issue.suspiciousEncoding ∨ i = Issue.publicIp

/-- The soft-risk set of the severity policy, constructor-level. -/
def SoftIssue (i : Issue) : Prop :=
  (∃ t, i = Issue.potentiallyRisky t) ∨ (∃ t, i = Issue.uncommonTld t)

/-- Learner states reachable from the initial empty learner by recorded
`proceed`/`block` interactions. -/
inductive ReachableLearner : Learner → Prop
  | init : ReachableLearner emptyLearner
  | step (env : Env) (url : String) (action : UserAction) (analysis : AnalysisResult)
      (L L' : Learner) : ReachableLearner L →
      recordInteraction env L url action analysis = some L' → ReachableLearner L'

/-- The invariants of reachable learner states the score bounds rely on:
the override map is never written, and domain counters satisfy
`safe ≤ total`. -/
def LearnerWF (L : Learner) : Prop :=
  L.safeOverrides = [] ∧
  ∀ d dt, List.lookup d L.domainTrust = some dt → dt.safe ≤ dt.total

/-- The operations a process run can interleave between the override and a
later analysis of the same URL. -/
inductive EngineOp where
  | analyze (env : Env) (url : String)
  | override (env : Env) (url : String)
  | block (env : Env) (url : String)
  | settingsUpdate (s : Settings)

noncomputable def applyOp (st : EngineState) : EngineOp → EngineState
  | EngineOp.analyze env url => (handleUrlAnalysis env st url).state
  | EngineOp.override env url => handleUserOverride env st url
  | EngineOp.block env url => handleUserBlock env st url
  | EngineOp.settingsUpdate s => handleSettingsUpdate st s

noncomputable def applyOps (st : EngineState) : List EngineOp → EngineState
  | [] => st
  | op :: rest => applyOps (applyOp st op) rest

/-- A fixed clock/hour/reputation environment for the concrete witnesses. -/
def envW : Env := ⟨0, 0, noThreats⟩

/-- A concrete analysis result for the concrete witnesses. -/
def analysisW : AnalysisResult := analyzeUrl "https://example.com/" noThreats 0

/-- The learner after one recorded block interaction from the empty state. -/
def learnerB : Learner :=
  (recordInteraction envW emptyLearner "https://example.com/" UserAction.block
    analysisW).getD emptyLearner

/-- A fresh engine state with empty cache, history and learner. -/
def stEmpty : EngineState :=
  { settings := defaultSettings, urlCache := [], analyzingUrls := [],
    sessionOverrides := [], stats := ⟨0, 0, 0, 0⟩, urlHistory := [], learner := emptyLearner }

/-- An engine state holding one fresh cache entry. -/
def stCached : EngineState :=
  { settings := defaultSettings,
    urlCache := [("https://example.com/", ⟨0, analysisW⟩)],
    analyzingUrls := [], sessionOverrides := [], stats := ⟨0, 0, 0, 0⟩,
    urlHistory := [], learner := emptyLearner }

/-- An engine state whose in-flight set already holds a URL. -/
def stInFlight : EngineState :=
  { settings := defaultSettings, urlCache := [], analyzingUrls := ["https://busy.com/"],
    sessionOverrides := [], stats := ⟨0, 0, 0, 0⟩, urlHistory := [], learner := emptyLearner }

/-! ## Association-list helper lemmas -/

theorem beq_false_of_ne {α : Type} [BEq α] [LawfulBEq α] {a b : α} (h : ¬a = b) :
    (a == b) = false := by
  cases hb : a == b with
  | false => rfl
  | true => exact absurd (eq_of_beq hb) h

theorem lookup_alSet {α β : Type} [BEq α] [LawfulBEq α] (m : List (α × β)) (k d : α) (v : β) :
    List.lookup d (alSet m k v) = if d == k then some v else List.lookup d m := by
  induction m with
  | nil =>
    by_cases hd : d = k
    · subst hd
      simp [alSet, List.lookup_cons]
    · simp [alSet, List.lookup_cons, beq_false_of_ne hd, hd]
  | cons p rest ih =>
    obtain ⟨k', v'⟩ := p
    by_cases hk : k' = k
    · subst hk
      by_cases hd : d = k'
      · subst hd
        simp [alSet, List.lookup_cons]
      · simp [alSet, List.lookup_cons, beq_false_of_ne hd, hd]
    · by_cases hd : d = k'
      · have hdk : ¬d = k := by
          rw [hd]
          exact hk
        subst hd
        simp [alSet, List.lookup_cons, beq_false_of_ne hk, beq_false_of_ne hdk]
      · simp [alSet, List.lookup_cons, beq_false_of_ne hk, beq_false_of_ne hd, ih]

theorem lookup_eq_none_of_not_mem_keys {α β : Type} [BEq α] [LawfulBEq α]
    (m : List (α × β)) (k : α) (h : k ∉ m.map Prod.fst) : List.lookup k m = none := by
  induction m with
  | nil => rfl
  | cons p rest ih =>
    obtain ⟨k', v'⟩ := p
    have h1 : ¬k = k' := by
      intro he
      exact h (by simp [he])
    have h3 : k ∉ rest.map Prod.fst := fun hm => h (by simp [hm])
    simp only [List.lookup_cons, beq_false_of_ne h1]
    exact ih h3

theorem alErase_of_lookup_none {α β : Type} [BEq α] [LawfulBEq α]
    (m : List (α × β)) (k : α) (h : List.lookup k m = none) : alErase m k = m := by
  induction m with
  | nil => rfl
  | cons p rest ih =>
    obtain ⟨k', v'⟩ := p
    by_cases hk : k = k'
    · subst hk
      simp [List.lookup_cons] at h
    · have h' : List.lookup k rest = none := by
        simpa [List.lookup_cons, beq_false_of_ne hk] using h
      have hk' : ¬k' = k := fun he => hk he.symm
      simp [alErase, beq_false_of_ne hk', ih h']

theorem lookup_alErase_alSet {α β : Type} [BEq α] [LawfulBEq α]
    (m : List (α × β)) (k : α) (v : β) (h : (m.map Prod.fst).Nodup) :
    List.lookup k (alErase (alSet m k v) k) = none := by
  induction m with
  | nil => simp [alSet, alErase]
  | cons p rest ih =>
    obtain ⟨k', v'⟩ := p
    rw [List.map_cons] at h
    have hcons := List.nodup_cons.mp h
    by_cases hk : k' = k
    · subst hk
      simp only [alSet, beq_self_eq_true, if_true, alErase]
      exact lookup_eq_none_of_not_mem_keys rest k' hcons.1
    · simp only [alSet, beq_false_of_ne hk, Bool.false_eq_true, if_false, alErase]
      have hk' : ¬k = k' := fun he => hk he.symm
      simp only [List.lookup_cons, beq_false_of_ne hk']
      exact ih hcons.2

/-- A fresh `get` never deletes: on a hit the map is returned unchanged. -/
theorem cacheGet_snd_of_none (c : List (String × CacheEntry)) (url : String) (now : Nat)
    (h : (cacheGet c url now).1 = none) : (cacheGet c url now).2 = alErase c url := by
  unfold cacheGet at *
  cases hl : List.lookup url c with
  | none => simp [hl]
  | some e =>
    simp [hl] at h ⊢
    by_cases hf : now - e.timestamp < CACHE_DURATION
    · simp [hf] at h
    · simp [hf]

/-! ## Claim C1: USER_BLOCK dispatch -/

/-- C1: the spec's command table says an inbound `USER_BLOCK` message records
a `block` interaction for the URL's domain.  In the code the message listener
routes only ANALYZE_URL, USER_OVERRIDE, SETTINGS_UPDATED, GET_STATS and
GET_HISTORY; a USER_BLOCK message falls through to `return false`, so
`handleUserBlock` is never invoked and the engine state — in particular the
learner's domain-trust map — is left completely unchanged. -/
theorem userBlock_not_dispatched :
    dispatchedHandler MessageType.USER_BLOCK = none ∧
    ∀ (env : Env) (st : EngineState) (url : String) (s : Settings),
      processMessage env st MessageType.USER_BLOCK url s = st ∧
      (processMessage env st MessageType.USER_BLOCK url s).learner.domainTrust =
        st.learner.domainTrust :=
  ⟨rfl, fun _ _ _ _ => ⟨rfl, rfl⟩⟩

/-! ## Claim C3: USER_OVERRIDE and the override-frequency record -/

/-- C3: the spec says a USER_OVERRIDE increments the `frequency` field of the
override record for the URL's domain.  In the code `handleUserOverride` calls
`recordInteraction(url, 'proceed', ...)`, and no code path anywhere writes
the `safeOverrides` map, so the override-frequency record is never created or
incremented and the learner's overrideFrequency component stays 0 forever. -/
theorem recordInteraction_safeOverrides (env : Env) (L : Learner) (url : String)
    (action : UserAction) (analysis : AnalysisResult) (L' : Learner)
    (h : recordInteraction env L url action analysis = some L') :
    L'.safeOverrides = L.safeOverrides := by
  unfold recordInteraction at h
  obtain ⟨d, hd, hL⟩ := Option.map_eq_some'.mp h
  rw [← hL]

theorem userOverride_never_updates_overrideRecord (env : Env) (st : EngineState)
    (url : String) :
    (handleUserOverride env st url).learner.safeOverrides = st.learner.safeOverrides := by
  simp only [handleUserOverride]
  cases hg : (cacheGet st.urlCache url env.now).1 with
  | none => rfl
  | some analysis =>
    dsimp only
    cases hr : recordInteraction env st.learner url UserAction.proceed analysis with
    | none => rfl
    | some L' =>
      have hs : L'.safeOverrides = st.learner.safeOverrides :=
        recordInteraction_safeOverrides env st.learner url UserAction.proceed analysis L' hr
      dsimp only
      by_cases hk : st.settings.keepHistory = true <;> simp [hk, hs]

/-! ## Claim C8: cache round-trip -/

/-- C8: after `set(u,r)`, a `get(u)` whose age is strictly below the TTL
(24h) returns `r` unchanged and leaves the cache as written, and a `get(u)`
whose age is at least the TTL reports a miss and evicts the entry.  Stated
for caches with pairwise-distinct keys, the representation invariant a JS
`Map` maintains by construction. -/
theorem cache_roundtrip (c : List (String × CacheEntry)) (u : String)
    (r : AnalysisResult) (t now2 : Nat) (hnodup : (c.map Prod.fst).Nodup) :
    (now2 - t < CACHE_DURATION →
      cacheGet (cacheSet c u t r) u now2 = (some r, cacheSet c u t r)) ∧
    (CACHE_DURATION ≤ now2 - t →
      (cacheGet (cacheSet c u t r) u now2).1 = none ∧
      List.lookup u (cacheGet (cacheSet c u t r) u now2).2 = none) := by
  have hl : List.lookup u (alSet c u (⟨t, r⟩ : CacheEntry)) = some ⟨t, r⟩ := by
    rw [lookup_alSet]
    simp
  constructor
  · intro hfresh
    unfold cacheGet cacheSet
    rw [hl]
    simp [hfresh]
  · intro hstale
    have hns : ¬(now2 - t < CACHE_DURATION) := not_lt.mpr hstale
    unfold cacheGet cacheSet
    rw [hl]
    simp only [hns, if_false]
    exact ⟨trivial, lookup_alErase_alSet c u ⟨t, r⟩ hnodup⟩

/-- Witness for C8 at a concrete cache, result and clock values. -/
theorem cache_roundtrip_witness :
    cacheGet (cacheSet [] "https://example.com/" 0
        (analyzeUrl "https://example.com/" noThreats 0)) "https://example.com/" 5 =
      (some (analyzeUrl "https://example.com/" noThreats 0),
        cacheSet [] "https://example.com/" 0 (analyzeUrl "https://example.com/" noThreats 0)) ∧
    (cacheGet (cacheSet [] "https://example.com/" 0
        (analyzeUrl "https://example.com/" noThreats 0)) "https://example.com/"
        CACHE_DURATION).1 = none :=
  ⟨(cache_roundtrip [] "https://example.com/" (analyzeUrl "https://example.com/" noThreats 0)
      0 5 (by decide)).1 (by decide),
   ((cache_roundtrip [] "https://example.com/" (analyzeUrl "https://example.com/" noThreats 0)
      0 CACHE_DURATION (by decide)).2 (by decide)).1⟩

/-! ## Claim C10: in-flight de-duplication short-circuit -/

/-- C10: when protection is on, the URL is not session-overridden, the cache
misses, and the URL is already in the in-flight set, `handleUrlAnalysis`
replies `safe=true, cached=true` with zero `analyzeUrl` runs (hence no
structural analysis and no outbound reputation lookup), leaves stats,
history, learner, overrides and in-flight set untouched, and changes the
cache only by the lazy eviction the miss check itself performed — when no
entry for the URL existed at all, the state is exactly unchanged. -/
theorem inflight_dedup_shortcircuit (env : Env) (st : EngineState) (url : String)
    (hprot : st.settings.enableProtection = true)
    (hov : st.sessionOverrides.contains url = false)
    (hmiss : (cacheGet st.urlCache url env.now).1 = none)
    (hin : st.analyzingUrls.contains url = true) :
    (handleUrlAnalysis env st url).response = { safe := true, cached := true } ∧
    (handleUrlAnalysis env st url).lookups = 0 ∧
    (handleUrlAnalysis env st url).state = { st with urlCache := alErase st.urlCache url } ∧
    (List.lookup url st.urlCache = none → (handleUrlAnalysis env st url).state = st) := by
  have h2 := cacheGet_snd_of_none st.urlCache url env.now hmiss
  have hov' : url ∉ st.sessionOverrides := by simpa using hov
  have hin' : url ∈ st.analyzingUrls := by simpa using hin
  have hmain : handleUrlAnalysis env st url =
      ⟨{ safe := true, cached := true }, { st with urlCache := alErase st.urlCache url }, 0⟩ := by
    simp [handleUrlAnalysis, hprot, hov', hmiss, h2, hin']
  refine ⟨by rw [hmain], by rw [hmain], by rw [hmain], ?_⟩
  intro hnone
  rw [hmain, alErase_of_lookup_none st.urlCache url hnone]

/-- Witness for C10: a concrete state whose in-flight set holds the URL. -/
theorem inflight_dedup_shortcircuit_witness :
    (handleUrlAnalysis ⟨0, 0, noThreats⟩ stInFlight "https://busy.com/").response =
      { safe := true, cached := true } ∧
    (handleUrlAnalysis ⟨0, 0, noThreats⟩ stInFlight "https://busy.com/").lookups = 0 ∧
    (handleUrlAnalysis ⟨0, 0, noThreats⟩ stInFlight "https://busy.com/").state = stInFlight :=
  ⟨(inflight_dedup_shortcircuit ⟨0, 0, noThreats⟩ stInFlight "https://busy.com/"
      (by decide) (by decide) (by decide) (by decide)).1,
   (inflight_dedup_shortcircuit ⟨0, 0, noThreats⟩ stInFlight "https://busy.com/"
      (by decide) (by decide) (by decide) (by decide)).2.1,
   (inflight_dedup_shortcircuit ⟨0, 0, noThreats⟩ stInFlight "https://busy.com/"
      (by decide) (by decide) (by decide) (by decide)).2.2.2 (by decide)⟩

/-! ## Claim C5: severity policy of the structural analyzer -/

theorem isHard_iff (i : Issue) : Issue.isHard i = true ↔ HardIssue i := by
  cases i <;> simp [Issue.isHard, HardIssue]

theorem isSoft_iff (i : Issue) : Issue.isSoft i = true ↔ SoftIssue i := by
  cases i <;> simp [Issue.isSoft, SoftIssue]

theorem computeSeverity_cases (issues : List Issue) :
    (computeSeverity issues = Severity.high ↔
      2 < issues.length ∨ ∃ i ∈ issues, HardIssue i) ∧
    (computeSeverity issues = Severity.medium ↔
      ¬(2 < issues.length ∨ ∃ i ∈ issues, HardIssue i) ∧ ∃ i ∈ issues, SoftIssue i) ∧
    (computeSeverity issues = Severity.low ↔
      ¬(2 < issues.length ∨ ∃ i ∈ issues, HardIssue i) ∧ ¬∃ i ∈ issues, SoftIssue i) := by
  have hh : (issues.any Issue.isHard = true) ↔ (∃ i ∈ issues, HardIssue i) := by
    simp [List.any_eq_true, isHard_iff]
  have hs : (issues.any Issue.isSoft = true) ↔ (∃ i ∈ issues, SoftIssue i) := by
    simp [List.any_eq_true, isSoft_iff]
  unfold computeSeverity
  by_cases h0 : 0 < issues.length
  · by_cases hbig : 2 < issues.length
    · simp [h0, hbig]
    · by_cases hhard : issues.any Issue.isHard = true
      · simp [h0, hbig, hhard, hh.mp hhard]
      · have hh' : ¬∃ i ∈ issues, HardIssue i := fun he => hhard (hh.mpr he)
        by_cases hsoft : issues.any Issue.isSoft = true
        · simp [h0, hbig, hhard, hsoft, hh', hs.mp hsoft]
        · have hs' : ¬∃ i ∈ issues, SoftIssue i := fun he => hsoft (hs.mpr he)
          simp [h0, hbig, hhard, hsoft, hh', hs']
  · have he : issues = [] := List.length_eq_zero.mp (Nat.eq_zero_of_not_pos h0)
    subst he
    simp

/-- C5: for every URL string that parses, the analyzer's severity is `high`
exactly when the issue count exceeds 2 or some issue is in the hard set
(high-risk TLD, suspicious encoding, public IP literal); `medium` exactly
when no high condition holds and a soft-risk issue (medium-risk TLD with
structural complexity, or unrecognized TLD) is present; and `low` otherwise. -/
theorem severity_policy (s : String) (u : UrlObj) (hp : parseUrl s = some u) :
    ((analyzeUrlStructure s).2 = Severity.high ↔
      2 < (analyzeUrlStructure s).1.length ∨
        ∃ i ∈ (analyzeUrlStructure s).1, HardIssue i) ∧
    ((analyzeUrlStructure s).2 = Severity.medium ↔
      ¬(2 < (analyzeUrlStructure s).1.length ∨
        ∃ i ∈ (analyzeUrlStructure s).1, HardIssue i) ∧
      ∃ i ∈ (analyzeUrlStructure s).1, SoftIssue i) ∧
    ((analyzeUrlStructure s).2 = Severity.low ↔
      ¬(2 < (analyzeUrlStructure s).1.length ∨
        ∃ i ∈ (analyzeUrlStructure s).1, HardIssue i) ∧
      ¬∃ i ∈ (analyzeUrlStructure s).1, SoftIssue i) := by
  have hst : analyzeUrlStructure s = (computeIssues s u, computeSeverity (computeIssues s u)) := by
    unfold analyzeUrlStructure
    rw [hp]
  rw [hst]
  exact computeSeverity_cases (computeIssues s u)

/-- Witness for C5 at a concrete URL whose severity is `low`. -/
theorem severity_policy_witness :
    ¬(2 < (analyzeUrlStructure "https://www.github.com/user").1.length ∨
      ∃ i ∈ (analyzeUrlStructure "https://www.github.com/user").1, HardIssue i) :=
  ((severity_policy "https://www.github.com/user" ⟨"https", "www.github.com", none⟩
      (by decide)).2.2.mp (by decide)).1

/-! ## Claim C6: the public-IP example -/

/-- C6: analyzing `http://123.45.67.89/login` produces an issue list
containing the public-IP-literal finding, severity `high`, and `safe=false`
(with the absent-signal Safe Browsing default); and a public-IP finding alone
forces severity `high` in any issue list. -/
theorem publicIp_forces_high :
    Issue.publicIp ∈ (analyzeUrlStructure "http://123.45.67.89/login").1 ∧
    (analyzeUrlStructure "http://123.45.67.89/login").2 = Severity.high ∧
    (∀ now : Nat, (analyzeUrl "http://123.45.67.89/login" noThreats now).safe = false) ∧
    (∀ issues : List Issue, Issue.publicIp ∈ issues →
      computeSeverity issues = Severity.high) := by
  refine ⟨by decide, by decide, ?_, ?_⟩
  · intro now
    have hsev : (analyzeUrlStructure "http://123.45.67.89/login").2 = Severity.high := by decide
    simp [analyzeUrl, noThreats, hsev]
  · intro issues hmem
    exact (computeSeverity_cases issues).1.mpr
      (Or.inr ⟨Issue.publicIp, hmem, Or.inr (Or.inr rfl)⟩)

/-- Witness for C6's universally quantified part. -/
theorem publicIp_forces_high_witness :
    computeSeverity [Issue.publicIp] = Severity.high :=
  publicIp_forces_high.2.2.2 [Issue.publicIp] (by decide)

/-! ## Learner reachability and score bounds (C2, C9) -/

theorem updateDomainTrust_wf (m : List (String × DomainTrust)) (domain : String)
    (action : UserAction)
    (h : ∀ d dt, List.lookup d m = some dt → dt.safe ≤ dt.total) :
    ∀ d dt, List.lookup d (updateDomainTrust m domain action) = some dt →
      dt.safe ≤ dt.total := by
  intro d dt hl
  unfold updateDomainTrust at hl
  rw [lookup_alSet] at hl
  simp only [beq_iff_eq] at hl
  by_cases hd : d = domain
  · rw [if_pos hd] at hl
    have hdt := (Option.some.inj hl).symm
    subst hdt
    cases hcur : List.lookup domain m with
    | none =>
      cases action <;> simp
    | some cur =>
      have hle := h domain cur hcur
      cases action <;> simp <;> omega
  · rw [if_neg hd] at hl
    exact h d dt hl

theorem recordInteraction_wf (env : Env) (L : Learner) (url : String)
    (action : UserAction) (analysis : AnalysisResult) (L' : Learner)
    (hw : LearnerWF L) (h : recordInteraction env L url action analysis = some L') :
    LearnerWF L' := by
  unfold recordInteraction at h
  obtain ⟨d, hd, hL⟩ := Option.map_eq_some'.mp h
  subst hL
  exact ⟨hw.1, updateDomainTrust_wf L.domainTrust d action hw.2⟩

theorem reachable_wf (L : Learner) (h : ReachableLearner L) : LearnerWF L := by
  induction h with
  | init =>
    refine ⟨rfl, ?_⟩
    intro d dt hl
    simp [emptyLearner] at hl
  | step env url action analysis L L' hr heq ih =>
    exact recordInteraction_wf env L url action analysis L' ih heq

theorem natDiv_bounds (a b : Nat) (hab : a ≤ b) :
    0 ≤ (a : ℝ) / (b : ℝ) ∧ (a : ℝ) / (b : ℝ) ≤ 1 := by
  constructor
  · positivity
  · rcases Nat.eq_zero_or_pos b with hb | hb
    · subst hb
      have ha : a = 0 := Nat.le_zero.mp hab
      subst ha
      norm_num
    · rw [div_le_one (by exact_mod_cast hb)]
      exact_mod_cast hab

theorem domainHistoryScore_bounds (L : Learner) (domain : String)
    (hw : ∀ d dt, List.lookup d L.domainTrust = some dt → dt.safe ≤ dt.total) :
    0 ≤ domainHistoryScore L domain ∧ domainHistoryScore L domain ≤ 0.25 := by
  unfold domainHistoryScore
  cases hl : List.lookup domain L.domainTrust with
  | none => norm_num
  | some dt =>
    have hb := natDiv_bounds dt.safe dt.total (hw domain dt hl)
    unfold weightDomainHistory
    constructor <;> nlinarith [hb.1, hb.2]

theorem categoryScore_bounds (L : Learner) (analysis : AnalysisResult) :
    0 ≤ categoryScore L analysis ∧ categoryScore L analysis ≤ 0.25 := by
  unfold categoryScore
  cases hc : analysis.category with
  | none => norm_num
  | some c =>
    dsimp only
    cases hcp : List.lookup c L.categoryPreferences with
    | none => norm_num
    | some cp =>
      dsimp only
      have hb := natDiv_bounds cp.trusted (cp.trusted + cp.blocked) (Nat.le_add_right _ _)
      rw [Nat.cast_add] at hb
      unfold weightCategoryTrust
      constructor <;> nlinarith [hb.1, hb.2]

theorem timePatternScore_bounds (L : Learner) (hour : Nat) :
    0 ≤ timePatternScore L hour ∧ timePatternScore L hour ≤ 0.2 := by
  unfold timePatternScore
  cases htp : List.lookup hour L.timeBasedActivity with
  | none => norm_num
  | some tp =>
    have hb := natDiv_bounds tp.safe (tp.safe + tp.unsafeCount) (Nat.le_add_right _ _)
    rw [Nat.cast_add] at hb
    unfold weightTimePattern
    constructor <;> nlinarith [hb.1, hb.2]

theorem calculateOverrideScore_of_empty (env : Env) (L : Learner) (domain : String)
    (h : L.safeOverrides = []) : calculateOverrideScore env L domain = 0 := by
  unfold calculateOverrideScore
  rw [h]
  rfl

theorem calculateTrustScoreD_bounds (env : Env) (L : Learner) (domain : String)
    (analysis : AnalysisResult) (hw : LearnerWF L) :
    0 ≤ calculateTrustScoreD env L domain analysis ∧
    calculateTrustScoreD env L domain analysis ≤ 0.7 := by
  have h1 := domainHistoryScore_bounds L domain hw.2
  have h2 := categoryScore_bounds L analysis
  have h3 := timePatternScore_bounds L env.hour
  have h4 := calculateOverrideScore_of_empty env L domain hw.1
  unfold calculateTrustScoreD
  rw [h4, zero_mul, add_zero]
  constructor
  · linarith [h1.1, h2.1, h3.1]
  · linarith [h1.2, h2.2, h3.2]

theorem interpret_ne_trust (x : ℝ) (h : x ≤ 0.7) :
    interpretTrustScore x ≠ RecLevel.TRUST := by
  unfold interpretTrustScore
  have hx : ¬x ≥ 0.8 := by linarith
  rw [if_neg hx]
  split_ifs <;> simp

/-- C2: from an initially empty learner, the override-frequency map stays
empty (`recordInteraction` never writes it), the trust score stays at or
below 0.70 — the sum of the domainHistory, categoryTrust and timePattern
weights — so `interpretTrustScore` never returns TRUST, and the Decision
Engine's force-safe branch (TRUST with confidence above 0.8) can never be
entered with such a learner. -/
theorem emptyOverrides_trust_unreachable (env : Env) (L : Learner) (url : String)
    (analysis : AnalysisResult) (h : ReachableLearner L) :
    L.safeOverrides = [] ∧
    (∀ (env2 : Env) (url2 : String) (a : UserAction) (an : AnalysisResult) (L2 : Learner),
      recordInteraction env2 L url2 a an = some L2 → L2.safeOverrides = []) ∧
    (∀ ts, calculateTrustScore env L url analysis = some ts →
      ts ≤ 0.7 ∧ interpretTrustScore ts ≠ RecLevel.TRUST) ∧
    (∀ rcm, getRecommendations env L url analysis = some rcm →
      rcm.recommendation ≠ RecLevel.TRUST) := by
  have hw := reachable_wf L h
  refine ⟨hw.1, ?_, ?_, ?_⟩
  · intro env2 url2 a an L2 heq
    rw [recordInteraction_safeOverrides env2 L url2 a an L2 heq, hw.1]
  · intro ts hts
    unfold calculateTrustScore at hts
    obtain ⟨d, hd, hts'⟩ := Option.map_eq_some'.mp hts
    subst hts'
    have hb := calculateTrustScoreD_bounds env L d analysis hw
    exact ⟨hb.2, interpret_ne_trust _ hb.2⟩
  · intro rcm hr
    unfold getRecommendations at hr
    rcases hjs : jsUrlHostname url with _ | d
    · rw [hjs] at hr
      exact absurd hr (by simp)
    · rw [hjs] at hr
      have hrcm := Option.some.inj hr
      have hb := calculateTrustScoreD_bounds env L d analysis hw
      rw [← hrcm]
      exact interpret_ne_trust _ hb.2

/-- Witness for C2 at the initial empty learner. -/
theorem emptyOverrides_trust_unreachable_witness :
    emptyLearner.safeOverrides = [] ∧
    (∀ (env2 : Env) (url2 : String) (a : UserAction) (an : AnalysisResult) (L2 : Learner),
      recordInteraction env2 emptyLearner url2 a an = some L2 → L2.safeOverrides = []) ∧
    (∀ ts, calculateTrustScore envW emptyLearner "https://example.com/" analysisW = some ts →
      ts ≤ 0.7 ∧ interpretTrustScore ts ≠ RecLevel.TRUST) ∧
    (∀ rcm, getRecommendations envW emptyLearner "https://example.com/" analysisW = some rcm →
      rcm.recommendation ≠ RecLevel.TRUST) :=
  emptyOverrides_trust_unreachable envW emptyLearner "https://example.com/" analysisW
    ReachableLearner.init

theorem calculateConfidence_bounds (L : Learner) (domain : String) :
    0 ≤ calculateConfidence L domain ∧ calculateConfidence L domain ≤ 1 := by
  unfold calculateConfidence
  cases hl : List.lookup domain L.domainTrust with
  | none => norm_num
  | some dt =>
    constructor
    · apply le_min _ (by norm_num)
      apply div_nonneg _ (by norm_num)
      apply Real.logb_nonneg (by norm_num : (1 : ℝ) < 10)
      have : (0 : ℝ) ≤ (dt.total : ℝ) := Nat.cast_nonneg _
      linarith
    · exact min_le_right _ _

/-- C9: on every reachable learner state the trust score and the learning
confidence lie in `[0,1]`, and the confidence `min(log10(total+1)/2, 1)` is
non-decreasing in the domain's total interaction count. -/
theorem trust_confidence_bounds (env : Env) (L : Learner) (url : String)
    (analysis : AnalysisResult) (h : ReachableLearner L) :
    (∀ ts, calculateTrustScore env L url analysis = some ts → 0 ≤ ts ∧ ts ≤ 1) ∧
    (∀ domain : String, 0 ≤ calculateConfidence L domain ∧
      calculateConfidence L domain ≤ 1) ∧
    (∀ (L2 : Learner) (d1 d2 : String) (dt1 dt2 : DomainTrust),
      List.lookup d1 L.domainTrust = some dt1 →
      List.lookup d2 L2.domainTrust = some dt2 →
      dt1.total ≤ dt2.total →
      calculateConfidence L d1 ≤ calculateConfidence L2 d2) := by
  have hw := reachable_wf L h
  refine ⟨?_, fun domain => calculateConfidence_bounds L domain, ?_⟩
  · intro ts hts
    unfold calculateTrustScore at hts
    obtain ⟨d, hd, hts'⟩ := Option.map_eq_some'.mp hts
    subst hts'
    have hb := calculateTrustScoreD_bounds env L d analysis hw
    exact ⟨hb.1, by linarith [hb.2]⟩
  · intro L2 d1 d2 dt1 dt2 h1 h2 hle
    unfold calculateConfidence
    rw [h1, h2]
    have hcast : (dt1.total : ℝ) + 1 ≤ (dt2.total : ℝ) + 1 := by
      have : (dt1.total : ℝ) ≤ (dt2.total : ℝ) := by exact_mod_cast hle
      linarith
    have hlogb := Real.logb_le_logb_of_le (by norm_num : (1 : ℝ) < 10)
      (by positivity : (0 : ℝ) < (dt1.total : ℝ) + 1) hcast
    apply min_le_min _ le_rfl
    linarith [hlogb]

/-- Witness for C9 at a learner reached by one recorded block interaction. -/
theorem trust_confidence_bounds_witness :
    (∀ ts, calculateTrustScore envW learnerB "https://example.com/" analysisW = some ts →
      0 ≤ ts ∧ ts ≤ 1) ∧
    (∀ domain : String, 0 ≤ calculateConfidence learnerB domain ∧
      calculateConfidence learnerB domain ≤ 1) ∧
    (∀ (L2 : Learner) (d1 d2 : String) (dt1 dt2 : DomainTrust),
      List.lookup d1 learnerB.domainTrust = some dt1 →
      List.lookup d2 L2.domainTrust = some dt2 →
      dt1.total ≤ dt2.total →
      calculateConfidence learnerB d1 ≤ calculateConfidence L2 d2) :=
  trust_confidence_bounds envW learnerB "https://example.com/" analysisW
    (ReachableLearner.step envW "https://example.com/" UserAction.block analysisW
      emptyLearner learnerB ReachableLearner.init rfl)

/-! ## Claim C4: USER_OVERRIDE then ANALYZE_URL -/

theorem handleUrlAnalysis_sessionOverrides (env : Env) (st : EngineState) (url : String) :
    (handleUrlAnalysis env st url).state.sessionOverrides = st.sessionOverrides := by
  unfold handleUrlAnalysis
  dsimp only
  repeat' split
  all_goals rfl

theorem handleUserBlock_sessionOverrides (env : Env) (st : EngineState) (url : String) :
    (handleUserBlock env st url).sessionOverrides = st.sessionOverrides := by
  unfold handleUserBlock
  dsimp only
  repeat' split
  all_goals rfl

theorem mem_setAdd_self (l : List String) (x : String) : x ∈ setAdd l x := by
  unfold setAdd
  split_ifs with hx
  · simpa using hx
  · exact List.mem_cons_self x l

theorem mem_setAdd_of_mem (l : List String) (x y : String) (h : y ∈ l) :
    y ∈ setAdd l x := by
  unfold setAdd
  split_ifs with hx
  · exact h
  · exact List.mem_cons_of_mem x h

theorem handleUserOverride_preserves_mem (env : Env) (st : EngineState) (url y : String)
    (h : y ∈ st.sessionOverrides) : y ∈ (handleUserOverride env st url).sessionOverrides := by
  unfold handleUserOverride
  try dsimp only
  repeat' split
  all_goals first
    | exact h
    | exact mem_setAdd_of_mem st.sessionOverrides url y h

theorem applyOp_preserves_mem (st : EngineState) (op : EngineOp) (y : String)
    (h : y ∈ st.sessionOverrides) : y ∈ (applyOp st op).sessionOverrides := by
  cases op with
  | analyze env url =>
    unfold applyOp
    rw [handleUrlAnalysis_sessionOverrides]
    exact h
  | override env url => exact handleUserOverride_preserves_mem env st url y h
  | block env url =>
    unfold applyOp
    rw [handleUserBlock_sessionOverrides]
    exact h
  | settingsUpdate s => exact h

theorem applyOps_preserves_mem (ops : List EngineOp) (st : EngineState) (y : String)
    (h : y ∈ st.sessionOverrides) : y ∈ (applyOps st ops).sessionOverrides := by
  induction ops generalizing st with
  | nil => exact h
  | cons op rest ih => exact ih (applyOp st op) (applyOp_preserves_mem st op y h)

/-- C4 (amended): when `USER_OVERRIDE(u)` is processed while `u` still has an
unexpired cache entry and `u` parses as a URL (the preconditions under which
the handler actually records the override), `u` enters the session-override
set, stays there across any further engine operations of the process run,
and every later `ANALYZE_URL(u)` with protection enabled replies
`overridden=true, safe=true` with zero `analyzeUrl` runs, i.e. no new
outbound reputation lookup — the override check is terminal. -/
theorem override_then_analyze_overridden (env : Env) (st : EngineState) (url : String)
    (hc : (cacheGet st.urlCache url env.now).1 ≠ none)
    (hjs : jsUrlHostname url ≠ none) :
    url ∈ (handleUserOverride env st url).sessionOverrides ∧
    (∀ ops : List EngineOp,
      url ∈ (applyOps (handleUserOverride env st url) ops).sessionOverrides) ∧
    (∀ (env2 : Env) (st2 : EngineState), url ∈ st2.sessionOverrides →
      st2.settings.enableProtection = true →
      (handleUrlAnalysis env2 st2 url).response.overridden = true ∧
      (handleUrlAnalysis env2 st2 url).response.safe = true ∧
      (handleUrlAnalysis env2 st2 url).lookups = 0) := by
  have hmem : url ∈ (handleUserOverride env st url).sessionOverrides := by
    unfold handleUserOverride
    simp only []
    cases hg : (cacheGet st.urlCache url env.now).1 with
    | none => exact absurd hg hc
    | some analysis =>
      dsimp only
      cases hjs2 : jsUrlHostname url with
      | none => exact absurd hjs2 hjs
      | some d =>
        have hr : recordInteraction env st.learner url UserAction.proceed analysis ≠ none := by
          unfold recordInteraction
          rw [hjs2]
          simp
        cases hri : recordInteraction env st.learner url UserAction.proceed analysis with
        | none => exact absurd hri hr
        | some L' =>
          try dsimp only
          split_ifs <;> exact mem_setAdd_self _ _
  refine ⟨hmem, ?_, ?_⟩
  · intro ops
    exact applyOps_preserves_mem ops (handleUserOverride env st url) url hmem
  · intro env2 st2 hmem2 hprot2
    have heq : handleUrlAnalysis env2 st2 url =
        ⟨{ safe := true, overridden := true,
           result := (cacheGet st2.urlCache url env2.now).1 },
         { st2 with urlCache := (cacheGet st2.urlCache url env2.now).2 }, 0⟩ := by
      unfold handleUrlAnalysis
      rw [hprot2]
      simp [hmem2]
    rw [heq]
    exact ⟨rfl, rfl, rfl⟩

/-- Witness for C4's amended statement at a concrete cached state. -/
theorem override_then_analyze_overridden_witness :
    "https://example.com/" ∈
      (handleUserOverride envW stCached "https://example.com/").sessionOverrides ∧
    (∀ ops : List EngineOp, "https://example.com/" ∈
      (applyOps (handleUserOverride envW stCached "https://example.com/") ops).sessionOverrides) ∧
    (∀ (env2 : Env) (st2 : EngineState), "https://example.com/" ∈ st2.sessionOverrides →
      st2.settings.enableProtection = true →
      (handleUrlAnalysis env2 st2 "https://example.com/").response.overridden = true ∧
      (handleUrlAnalysis env2 st2 "https://example.com/").response.safe = true ∧
      (handleUrlAnalysis env2 st2 "https://example.com/").lookups = 0) :=
  override_then_analyze_overridden envW stCached "https://example.com/"
    (by decide) (by decide)

theorem interpretTrustScore_zero : interpretTrustScore 0 = RecLevel.UNSAFE := by
  unfold interpretTrustScore
  norm_num

/-- C4 counterexample: with an empty cache, `handleUserOverride` is a no-op
(its guard requires a cached analysis), so a subsequent `ANALYZE_URL` of the
same URL runs a fresh analysis and replies without `overridden=true` — and
for this URL even with `safe=false`.  This refutes the unconditional claim
that a `USER_OVERRIDE(u)` makes every later `ANALYZE_URL(u)` return
`overridden=true, safe=true`. -/
theorem override_uncached_not_overridden :
    (handleUrlAnalysis envW (handleUserOverride envW stEmpty "http://123.45.67.89/login")
        "http://123.45.67.89/login").response.overridden = false ∧
    (handleUrlAnalysis envW (handleUserOverride envW stEmpty "http://123.45.67.89/login")
        "http://123.45.67.89/login").response.safe = false := by
  have hov : handleUserOverride envW stEmpty "http://123.45.67.89/login" = stEmpty := rfl
  have hjs : jsUrlHostname "http://123.45.67.89/login" = some "123.45.67.89" := by decide
  have hcat : (analyzeUrl "http://123.45.67.89/login" noThreats 0).category = none := by decide
  have hts : calculateTrustScoreD envW emptyLearner "123.45.67.89"
      (analyzeUrl "http://123.45.67.89/login" noThreats 0) = 0 := by
    unfold calculateTrustScoreD domainHistoryScore categoryScore timePatternScore
    rw [calculateOverrideScore_of_empty envW emptyLearner _ rfl, hcat]
    simp [emptyLearner, envW]
  have hconf : calculateConfidence emptyLearner "123.45.67.89" = 0 := by
    unfold calculateConfidence
    simp [emptyLearner]
  have hrec : getRecommendations envW emptyLearner "http://123.45.67.89/login"
      (analyzeUrl "http://123.45.67.89/login" noThreats 0) =
      some ⟨0, RecLevel.UNSAFE, ⟨0, 0, 0⟩, 0⟩ := by
    unfold getRecommendations
    rw [hjs]
    dsimp only
    rw [hts, interpretTrustScore_zero, hconf]
    simp [emptyLearner]
  have hsafe : (analyzeUrl "http://123.45.67.89/login" noThreats 0).safe = false := by decide
  have hng : ¬((0 : ℝ) > 0.8) := by norm_num
  rw [hov]
  unfold handleUrlAnalysis
  simp only []
  have hprot : stEmpty.settings.enableProtection = true := rfl
  have hsb : envW.sb = noThreats := rfl
  have hnow : envW.now = 0 := rfl
  have h1 : stEmpty.sessionOverrides = [] := rfl
  have h2 : stEmpty.analyzingUrls = [] := rfl
  have h3 : stEmpty.learner = emptyLearner := rfl
  have h4 : stEmpty.urlCache = [] := rfl
  simp [hprot, h1, h2, h3, h4, hsb, hnow, analyzeUrlStep, cacheGet, alErase,
    hrec, hng, hsafe]

/-! ## Claim C7: low-risk HTTPS URLs -/

/-- The low-risk and high-risk TLD sets are disjoint, so the high-risk branch
of the TLD check never fires for a low-risk TLD. -/
theorem low_tld_not_high (t : String) (h : LOW_RISK_TLDS.contains t = true) :
    HIGH_RISK_TLDS.contains t = false := by
  have hm : t ∈ LOW_RISK_TLDS := by simpa using h
  fin_cases hm <;> decide

theorem computeSeverity_low_of (issues : List Issue) (hlen : issues.length ≤ 2)
    (hh : ∀ i ∈ issues, Issue.isHard i = false)
    (hs : ∀ i ∈ issues, Issue.isSoft i = false) :
    computeSeverity issues = Severity.low := by
  apply (computeSeverity_cases issues).2.2.mpr
  constructor
  · rintro (hx | ⟨i, hi, hhard⟩)
    · omega
    · rw [← isHard_iff] at hhard
      rw [hh i hi] at hhard
      exact Bool.noConfusion hhard
  · rintro ⟨i, hi, hsoft⟩
    rw [← isSoft_iff] at hsoft
    rw [hs i hi] at hsoft
    exact Bool.noConfusion hsoft

/-- C7 (amended): every URL with hostname at most 50 characters, at most 3
subdomains, a TLD in the low-risk set that is not also in the medium-risk
set, HTTPS scheme, no suspicious-pattern match, no suspicious percent
encoding, and no public-IP-literal regex hit is assigned severity `low`, and
its merged analysis (with the absent-signal reputation default) is safe. -/
theorem lowrisk_https_low_severity (s : String) (u : UrlObj)
    (hp : parseUrl s = some u)
    (hlen : u.hostname.length ≤ 50)
    (hsub : subdomainCountOf u.hostname ≤ 3)
    (htld : LOW_RISK_TLDS.contains (tldOf u.hostname) = true)
    (htldm : MEDIUM_RISK_TLDS.contains (tldOf u.hostname) = false)
    (hscheme : u.scheme = "https")
    (hpat : suspiciousPatternTest s = false)
    (henc : suspiciousEncodingTest s = false)
    (hip : (ipv4PatternTest s && !privateIpTest u.hostname) = false) :
    (analyzeUrlStructure s).2 = Severity.low ∧
    ∀ now : Nat, (analyzeUrl s noThreats now).safe = true := by
  have hHigh := low_tld_not_high (tldOf u.hostname) htld
  have hsub' : ¬(subdomainCountOf u.hostname > MAX_SUBDOMAINS) := by
    unfold MAX_SUBDOMAINS
    omega
  have hlen' : ¬(u.hostname.length > 50) := by omega
  have hHigh' : tldOf u.hostname ∉ HIGH_RISK_TLDS := by simpa using hHigh
  have htld' : tldOf u.hostname ∈ LOW_RISK_TLDS := by simpa using htld
  have htldm' : tldOf u.hostname ∉ MEDIUM_RISK_TLDS := by simpa using htldm
  have hchunks : computeIssues s u =
      (match u.port with
        | some p => if !commonPorts.contains p then [Issue.unusualPort p] else []
        | none => []) ++
      (if hasUpperAZ u.hostname.data then [Issue.mixedCase] else []) := by
    unfold computeIssues
    simp [hsub', hHigh', htldm', htld', hpat, henc, hip, hlen']
  have hport : ∀ i ∈ (match u.port with
      | some p => if !commonPorts.contains p then [Issue.unusualPort p] else []
      | none => []), ∃ p, i = Issue.unusualPort p := by
    intro i hi
    cases hup : u.port with
    | none =>
      rw [hup] at hi
      simp at hi
    | some p =>
      rw [hup] at hi
      by_cases hcp : p ∈ commonPorts
      · simp [hcp] at hi
      · simp [hcp] at hi
        exact ⟨p, hi⟩
  have hmix : ∀ i ∈ (if hasUpperAZ u.hostname.data then [Issue.mixedCase] else []),
      i = Issue.mixedCase := by
    intro i hi
    by_cases hm : hasUpperAZ u.hostname.data = true
    · simp [hm] at hi
      exact hi
    · simp only [Bool.not_eq_true] at hm
      simp [hm] at hi
  have hsev : computeSeverity (computeIssues s u) = Severity.low := by
    rw [hchunks]
    apply computeSeverity_low_of
    · rw [List.length_append]
      have ha : (match u.port with
          | some p => if !commonPorts.contains p then [Issue.unusualPort p] else []
          | none => []).length ≤ 1 := by
        cases u.port with
        | none => simp
        | some p =>
          dsimp only
          split_ifs <;> simp
      have hb : (if hasUpperAZ u.hostname.data then [Issue.mixedCase] else []).length ≤ 1 := by
        split_ifs <;> simp
      omega
    · intro i hi
      rcases List.mem_append.mp hi with hx | hx
      · obtain ⟨p, rfl⟩ := hport i hx
        rfl
      · rw [hmix i hx]
        rfl
    · intro i hi
      rcases List.mem_append.mp hi with hx | hx
      · obtain ⟨p, rfl⟩ := hport i hx
        rfl
      · rw [hmix i hx]
        rfl
  have hstruct : (analyzeUrlStructure s).2 = Severity.low := by
    unfold analyzeUrlStructure
    rw [hp]
    exact hsev
  refine ⟨hstruct, ?_⟩
  intro now
  unfold analyzeUrl
  simp [noThreats, hstruct]

/-- Witness for C7's amended statement at a concrete low-risk HTTPS URL. -/
theorem lowrisk_https_low_severity_witness :
    (analyzeUrlStructure "https://www.github.com/user").2 = Severity.low ∧
    ∀ now : Nat, (analyzeUrl "https://www.github.com/user" noThreats now).safe = true :=
  lowrisk_https_low_severity "https://www.github.com/user"
    ⟨"https", "www.github.com", none⟩ (by decide) (by decide) (by decide) (by decide)
    (by decide) (by decide) (by decide) (by decide) (by decide)

/-- C7 counterexample: `https://example.com/%41` satisfies every condition of
the original claim — hostname length 11 ≤ 50, 0 subdomains, low-risk TLD
`com`, HTTPS scheme, no suspicious-pattern match — yet its suspicious percent
escape `%41` puts it in the hard set, so severity is `high` and the analysis
is unsafe, refuting the claim as stated. -/
theorem lowrisk_https_encoding_cex :
    parseUrl "https://example.com/%41" = some ⟨"https", "example.com", none⟩ ∧
    ("example.com" : String).length ≤ 50 ∧
    subdomainCountOf "example.com" ≤ 3 ∧
    LOW_RISK_TLDS.contains (tldOf "example.com") = true ∧
    suspiciousPatternTest "https://example.com/%41" = false ∧
    (analyzeUrlStructure "https://example.com/%41").2 = Severity.high ∧
    (analyzeUrl "https://example.com/%41" noThreats 0).safe = false := by
  decide

end Aegis
